import Mathlib

/-!
Shallow embedding of the `autopilot` extension source (`src/extension.ts`),
centred on the free-text response parser `parseAiResponse` and on the
control flow of `analyzeWithDeepSeek`.

Strings are modelled as Lean `String` / `List Char`.  The JavaScript string
operations used by the source are embedded one by one:

* `String.prototype.split(sep)` for the two separators actually used by the
  source (`"\n\n"` for sections, `"\n"` for lines): leftmost, non-overlapping
  occurrences of the separator delimit the chunks, and the result is never
  empty (splitting the empty string gives one empty chunk, as in JavaScript).
* `String.prototype.includes(pat)` : substring containment.
* `String.prototype.toLowerCase()` : per-character ASCII lowercasing
  (`Char.toLower`); the inputs relevant here are ASCII.
* `String.prototype.trim()` : strips the JavaScript whitespace characters
  from both ends.
* `line.replace(/^- /, "")` : removes one leading dash-space marker when the
  line starts with exactly a dash followed by a space.
* `Array.prototype.join(sep)` / `slice(1)` / `map` : `joinSep`, `List.drop 1`,
  `List.map`.
-/

/-- The record type produced by the parser; mirrors the `ProjectAnalysis`
interface of `src/extension.ts` (lines 7-13). -/
structure ProjectAnalysis where
  projectName : String
  techStack : List String
  projectIdeas : List String
  folderStructureAnalysis : String
  summary : String
deriving Repr, DecidableEq

/-- The freshly initialised record of `parseAiResponse` (lines 150-156):
every field at its default value. -/
def emptyAnalysis : ProjectAnalysis :=
  { projectName := ""
    techStack := []
    projectIdeas := []
    folderStructureAnalysis := ""
    summary := "" }

/-- Does `l` start with the pattern `pat`?  Embeds the anchored part of a
JavaScript regex / initial-segment test on strings. -/
def startsWith : List Char → List Char → Bool
  | [], _ => true
  | _ :: _, [] => false
  | p :: ps, c :: cs => p == c && startsWith ps cs

/-- JavaScript `haystack.includes(pat)` : `pat` occurs contiguously in the
haystack. -/
def containsSub (pat : List Char) : List Char → Bool
  | [] => pat.isEmpty
  | c :: rest => startsWith pat (c :: rest) || containsSub pat rest

/-- One step of JavaScript `rawText.split("\n\n")` (line 158): returns the
first chunk and the list of remaining chunks, consuming leftmost
non-overlapping occurrences of the two-newline separator. -/
def splitSectionsF : List Char → List Char × List (List Char)
  | [] => ([], [])
  | [c] => ([c], [])
  | c1 :: c2 :: rest =>
    if c1 == '\n' && c2 == '\n' then
      ([], (splitSectionsF rest).1 :: (splitSectionsF rest).2)
    else
      (c1 :: (splitSectionsF (c2 :: rest)).1, (splitSectionsF (c2 :: rest)).2)

/-- JavaScript `rawText.split("\n\n")` : always a non-empty list of chunks. -/
def splitSections (l : List Char) : List (List Char) :=
  (splitSectionsF l).1 :: (splitSectionsF l).2

/-- One step of JavaScript `section.split("\n")` (line 160). -/
def splitLinesF : List Char → List Char × List (List Char)
  | [] => ([], [])
  | c :: rest =>
    if c == '\n' then
      ([], (splitLinesF rest).1 :: (splitLinesF rest).2)
    else
      (c :: (splitLinesF rest).1, (splitLinesF rest).2)

/-- JavaScript `section.split("\n")` : always a non-empty list of lines. -/
def sectionLines (sec : List Char) : List (List Char) :=
  (splitLinesF sec).1 :: (splitLinesF sec).2

/-- The JavaScript whitespace characters stripped by `trim()` that can occur
in the 16-bit code units relevant here. -/
def jsWhitespaceChar (c : Char) : Bool :=
  c == ' ' || c == '\t' || c == '\n' || c == '\r' || c == '\x0b' ||
    c == '\x0c' || c == '\u00A0' || c == '\uFEFF'

/-- JavaScript `s.trim()` : drop whitespace from both ends. -/
def jsTrimL (l : List Char) : List Char :=
  ((l.dropWhile jsWhitespaceChar).reverse.dropWhile jsWhitespaceChar).reverse

/-- JavaScript `line.replace(/^- /, "")` (lines 166 and 168): remove a single
leading dash-space marker, and only when the line starts with exactly a dash
followed by a space. -/
def jsReplaceLeadingDash (l : List Char) : List Char :=
  match l with
  | c1 :: c2 :: rest => if c1 == '-' && c2 == ' ' then rest else l
  | _ => l

/-- JavaScript `Array.prototype.join(sep)`. -/
def joinSep (sep : List Char) : List (List Char) → List Char
  | [] => []
  | [x] => x
  | x :: xs => x ++ sep ++ joinSep sep xs

/-- The lower-cased heading of a section: `lines[0].toLowerCase()`
(line 161). `sectionLines` is a non-empty list by construction, so the
JavaScript index `lines[0]` is its head. -/
def sectionHeader (sec : List Char) : List Char :=
  ((sectionLines sec).headD []).map Char.toLower

/-- The transform applied to each body line of the two list-valued fields
(lines 166 and 168): `line.replace(/^- /, "").trim()`. -/
def listEntry (line : List Char) : String :=
  (jsTrimL (jsReplaceLeadingDash line)).asString

/-- The body of the `sections.forEach` callback of `parseAiResponse`
(lines 159-174): splits one section into lines, lower-cases its heading and
dispatches on the keyword substrings in the source order, updating exactly
the matched field of the accumulated record. -/
def parseSection (result : ProjectAnalysis) (sec : List Char) : ProjectAnalysis :=
  let lines := sectionLines sec
  let header := sectionHeader sec
  if containsSub ("project name".toList) header then
    { result with projectName := (jsTrimL (joinSep [' '] (lines.drop 1))).asString }
  else if containsSub ("tech stack".toList) header then
    { result with techStack := (lines.drop 1).map listEntry }
  else if containsSub ("project purpose".toList) header
      || containsSub ("project ideas".toList) header then
    { result with projectIdeas := (lines.drop 1).map listEntry }
  else if containsSub ("folder structure".toList) header then
    { result with folderStructureAnalysis := (joinSep ['\n'] (lines.drop 1)).asString }
  else if containsSub ("summary".toList) header then
    { result with summary := (joinSep ['\n'] (lines.drop 1)).asString }
  else result

/-- `parseAiResponse` (lines 148-177): split the raw reply at blank lines and
fold the section handler over the sections, starting from the all-default
record. -/
def parseAiResponse (rawText : String) : ProjectAnalysis :=
  (splitSections rawText.toList).foldl parseSection emptyAnalysis

/-- Error-aware variant of the section handler: the one JavaScript operation
in the callback that could throw is reading `lines[0]` of an empty line
array (the subsequent `.toLowerCase()` would fail on `undefined`); this
variant returns `none` exactly in that situation and is used to state that
the situation never arises. -/
def parseSectionE (result : ProjectAnalysis) (sec : List Char) : Option ProjectAnalysis :=
  let lines := sectionLines sec
  match lines.head? with
  | none => none
  | some h0 =>
    let header := h0.map Char.toLower
    some
      (if containsSub ("project name".toList) header then
        { result with projectName := (jsTrimL (joinSep [' '] (lines.drop 1))).asString }
      else if containsSub ("tech stack".toList) header then
        { result with techStack := (lines.drop 1).map listEntry }
      else if containsSub ("project purpose".toList) header
          || containsSub ("project ideas".toList) header then
        { result with projectIdeas := (lines.drop 1).map listEntry }
      else if containsSub ("folder structure".toList) header then
        { result with folderStructureAnalysis := (joinSep ['\n'] (lines.drop 1)).asString }
      else if containsSub ("summary".toList) header then
        { result with summary := (joinSep ['\n'] (lines.drop 1)).asString }
      else result)

/-- Error-aware variant of `parseAiResponse`: propagates a potential failure
of any section step through the fold. -/
def parseAiResponseE (rawText : String) : Option ProjectAnalysis :=
  (splitSections rawText.toList).foldlM parseSectionE emptyAnalysis

/-- Two independent parses of the same raw text, modelling two successive
calls of `parseAiResponse`. -/
def parseTwice (s : String) : ProjectAnalysis × ProjectAnalysis :=
  (parseAiResponse s, parseAiResponse s)

/-- True when the lower-cased heading contains none of the keyword
substrings tested by `parseAiResponse` (lines 163-173). -/
def matchesNoKeyword (header : List Char) : Bool :=
  !containsSub ("project name".toList) header &&
  !containsSub ("tech stack".toList) header &&
  !containsSub ("project purpose".toList) header &&
  !containsSub ("project ideas".toList) header &&
  !containsSub ("folder structure".toList) header &&
  !containsSub ("summary".toList) header

/-- The five keyword categories of the dispatch (lines 163-173), one per
field of the record. -/
inductive FieldTag where
  | projectName
  | techStack
  | projectIdeas
  | folderStructure
  | summary
deriving Repr, DecidableEq

/-- True when the branch of the given category is the one the dispatch
takes on a heading: the category keyword matches and none of the keywords
tested before it in the source order does. -/
def branchTaken : FieldTag → List Char → Bool
  | .projectName, header => containsSub ("project name".toList) header
  | .techStack, header =>
    !containsSub ("project name".toList) header &&
    containsSub ("tech stack".toList) header
  | .projectIdeas, header =>
    !containsSub ("project name".toList) header &&
    !containsSub ("tech stack".toList) header &&
    (containsSub ("project purpose".toList) header
      || containsSub ("project ideas".toList) header)
  | .folderStructure, header =>
    !containsSub ("project name".toList) header &&
    !containsSub ("tech stack".toList) header &&
    !(containsSub ("project purpose".toList) header
      || containsSub ("project ideas".toList) header) &&
    containsSub ("folder structure".toList) header
  | .summary, header =>
    !containsSub ("project name".toList) header &&
    !containsSub ("tech stack".toList) header &&
    !(containsSub ("project purpose".toList) header
      || containsSub ("project ideas".toList) header) &&
    !containsSub ("folder structure".toList) header &&
    containsSub ("summary".toList) header

/-- Observe the field of a record selected by a category; the two list
fields are injected on the right, the three text fields on the left. -/
def fieldOf : FieldTag → ProjectAnalysis → String ⊕ List String
  | .projectName, r => Sum.inl r.projectName
  | .techStack, r => Sum.inr r.techStack
  | .projectIdeas, r => Sum.inr r.projectIdeas
  | .folderStructure, r => Sum.inl r.folderStructureAnalysis
  | .summary, r => Sum.inl r.summary

/-- The value each branch assigns to its field, computed from the section
alone (lines 164-172): join-with-spaces-and-trim for the project name,
per-line strip-and-trim for the two list fields, join-with-line-breaks for
the two block fields. -/
def branchValue : FieldTag → List Char → String ⊕ List String
  | .projectName, sec =>
    Sum.inl (jsTrimL (joinSep [' '] ((sectionLines sec).drop 1))).asString
  | .techStack, sec => Sum.inr (((sectionLines sec).drop 1).map listEntry)
  | .projectIdeas, sec => Sum.inr (((sectionLines sec).drop 1).map listEntry)
  | .folderStructure, sec =>
    Sum.inl ((joinSep ['\n'] ((sectionLines sec).drop 1)).asString)
  | .summary, sec =>
    Sum.inl ((joinSep ['\n'] ((sectionLines sec).drop 1)).asString)

/-- How many of the five fields differ between two records. -/
def changedFieldCount (a b : ProjectAnalysis) : Nat :=
  (if a.projectName = b.projectName then 0 else 1) +
  (if a.techStack = b.techStack then 0 else 1) +
  (if a.projectIdeas = b.projectIdeas then 0 else 1) +
  (if a.folderStructureAnalysis = b.folderStructureAnalysis then 0 else 1) +
  (if a.summary = b.summary then 0 else 1)

/-- The outcome of the HTTP POST in `analyzeWithDeepSeek` as the caller sees
it: either `response.ok` with the reply text extracted from the first
completion choice (lines 140-141), or a failed response with its status
text (lines 136-138). -/
inductive FetchOutcome where
  | success (content : String)
  | failure (statusText : String)
deriving Repr, DecidableEq

/-- The configuration-error message thrown at line 104. -/
def configErrorMessage : String :=
  "DeepSeek API key not configured. Check extension settings."

/-- The prompt assembled at lines 107-118; the JSON rendering of the
key-file map is taken as an input, since only the control flow around the
prompt matters to the properties verified here. -/
def buildPrompt (structureStr filesJson : String) : String :=
  "Analyze this project structure and files. Provide:\n1. Project name (from directory structure)\n2. Tech stack (programming languages, frameworks, tools)\n3. Project purpose/ideas (based on files and structure)\n4. Folder structure analysis\n5. Brief summary\n\nProject structure:\n"
    ++ structureStr ++ "\n\nKey files content:\n" ++ filesJson

/-- The API key the source actually uses: the empty string literal of
line 101. -/
def sourceApiKey : String := ""

/-- Control flow of `analyzeWithDeepSeek` (lines 99-145).  The key is a
parameter so that the guard of line 103 can be stated about it (the source
initialises it with `sourceApiKey`); `doFetch` stands for the HTTP POST of
lines 120-134.  The second component counts the network requests issued.
The JavaScript falsiness test `!apiKey` on a string holds exactly for the
empty string, and when it fires the error of line 104 is thrown before
`fetch` runs, so the request count stays zero. -/
def analyzeWithDeepSeek (apiKey : String) (doFetch : String → FetchOutcome)
    (structureStr filesJson : String) : Except String ProjectAnalysis × Nat :=
  if apiKey = "" then
    (Except.error configErrorMessage, 0)
  else
    match doFetch (buildPrompt structureStr filesJson) with
    | .failure statusText => (Except.error ("API request failed: " ++ statusText), 1)
    | .success raw => (Except.ok (parseAiResponse raw), 1)

theorem parseSectionE_eq (acc : ProjectAnalysis) (sec : List Char) :
    parseSectionE acc sec = some (parseSection acc sec) := rfl

theorem foldlM_parseSectionE (l : List (List Char)) :
    ∀ acc : ProjectAnalysis,
      l.foldlM parseSectionE acc = some (l.foldl parseSection acc) := by
  induction l with
  | nil => intro acc; rfl
  | cons x xs ih =>
    intro acc
    rw [List.foldlM_cons, parseSectionE_eq, Option.bind_eq_bind, Option.some_bind,
      List.foldl_cons, ih]

theorem splitSectionsF_no_delim (l : List Char)
    (h : containsSub ['\n', '\n'] l = false) : splitSectionsF l = (l, []) := by
  induction l using splitSectionsF.induct with
  | case1 => rfl
  | case2 c => rfl
  | case3 c1 c2 rest hc ih =>
    exfalso
    rw [Bool.and_eq_true, beq_iff_eq, beq_iff_eq] at hc
    obtain ⟨rfl, rfl⟩ := hc
    simp [containsSub, startsWith] at h
  | case4 c1 c2 rest hc ih =>
    have hcf : (c1 == '\n' && c2 == '\n') = false := Bool.eq_false_iff.mpr hc
    simp only [containsSub, Bool.or_eq_false_iff] at h
    have h2 : containsSub ['\n', '\n'] (c2 :: rest) = false := by
      simp [containsSub, h.2.1, h.2.2]
    rw [splitSectionsF, hcf, ih h2]
    simp

theorem parseSection_of_noKeyword (acc : ProjectAnalysis) (sec : List Char)
    (h : matchesNoKeyword (sectionHeader sec) = true) :
    parseSection acc sec = acc := by
  simp only [matchesNoKeyword, Bool.and_eq_true, Bool.not_eq_true'] at h
  obtain ⟨⟨⟨⟨⟨h1, h2⟩, h3⟩, h4⟩, h5⟩, h6⟩ := h
  simp only [parseSection]
  rw [h1, h2, h3, h4, h5, h6]
  simp

theorem parseSection_branch (t : FieldTag) (acc : ProjectAnalysis) (sec : List Char)
    (h : branchTaken t (sectionHeader sec) = true) :
    fieldOf t (parseSection acc sec) = branchValue t sec := by
  cases t with
  | projectName =>
    simp only [branchTaken] at h
    simp only [parseSection, fieldOf, branchValue]
    rw [h]
    simp
  | techStack =>
    simp only [branchTaken, Bool.and_eq_true, Bool.not_eq_true'] at h
    obtain ⟨h1, h2⟩ := h
    simp only [parseSection, fieldOf, branchValue]
    rw [h1, h2]
    simp
  | projectIdeas =>
    simp only [branchTaken, Bool.and_eq_true, Bool.not_eq_true'] at h
    obtain ⟨⟨h1, h2⟩, h3⟩ := h
    simp only [parseSection, fieldOf, branchValue]
    rw [h1, h2, h3]
    simp
  | folderStructure =>
    simp only [branchTaken, Bool.and_eq_true, Bool.not_eq_true'] at h
    obtain ⟨⟨⟨h1, h2⟩, h3⟩, h4⟩ := h
    simp only [parseSection, fieldOf, branchValue]
    rw [h1, h2, h3, h4]
    simp
  | summary =>
    simp only [branchTaken, Bool.and_eq_true, Bool.not_eq_true'] at h
    obtain ⟨⟨⟨⟨h1, h2⟩, h3⟩, h4⟩, h5⟩ := h
    simp only [parseSection, fieldOf, branchValue]
    rw [h1, h2, h3, h4, h5]
    simp

theorem parseSection_not_branch (t : FieldTag) (acc : ProjectAnalysis) (sec : List Char)
    (h : branchTaken t (sectionHeader sec) = false) :
    fieldOf t (parseSection acc sec) = fieldOf t acc := by
  rw [Bool.eq_false_iff] at h
  cases t <;>
    (simp only [parseSection, fieldOf]
     split_ifs with g1 g2 g3 g4 g5 <;>
       first
       | rfl
       | (exfalso
          apply h
          simp only [branchTaken, Bool.and_eq_true, Bool.not_eq_true']
          simp_all))

theorem foldl_field_unchanged (t : FieldTag) (post : List (List Char)) :
    ∀ acc : ProjectAnalysis,
      (∀ s ∈ post, branchTaken t (sectionHeader s) = false) →
      fieldOf t (post.foldl parseSection acc) = fieldOf t acc := by
  induction post with
  | nil => intro acc _; rfl
  | cons x xs ih =>
    intro acc h
    rw [List.foldl_cons, ih _ fun s hs => h s (List.mem_cons_of_mem x hs),
      parseSection_not_branch t acc x (h x (List.mem_cons_self x xs))]

/-- Claim C1: `parseAiResponse` is a total function over all string inputs
and never signals an error: in the error-aware embedding, where the only
possibly-throwing JavaScript operation of the parser (indexing the heading
line) yields `none` instead of throwing, the parser always returns `some`
record, namely the record computed by `parseAiResponse` itself; malformed
input can only reach the default-valued fields of `emptyAnalysis`. -/
theorem parseAiResponse_total (s : String) :
    parseAiResponseE s = some (parseAiResponse s) := by
  unfold parseAiResponseE parseAiResponse
  exact foldlM_parseSectionE _ _

/-- Counterexample to claim C2 as stated: the input "Project Name\nFoo"
contains no two consecutive line breaks, yet the parser does not return the
all-default record, because the whole text forms a single section whose
heading matches the "project name" keyword. -/
theorem noSections_default_counterexample :
    containsSub ['\n', '\n'] ("Project Name\nFoo".toList) = false ∧
    parseAiResponse "Project Name\nFoo" ≠ emptyAnalysis := by decide

/-- Claim C2, amended: for any input text with no occurrence of two
consecutive line breaks, and whose lower-cased first line moreover contains
none of the keyword substrings, `parseAiResponse` returns the record with
every field at its default value. -/
theorem noSections_noKeyword_default (s : String)
    (h1 : containsSub ['\n', '\n'] s.toList = false)
    (h2 : matchesNoKeyword (sectionHeader s.toList) = true) :
    parseAiResponse s = emptyAnalysis := by
  unfold parseAiResponse splitSections
  rw [splitSectionsF_no_delim s.toList h1]
  simp only [List.foldl]
  exact parseSection_of_noKeyword emptyAnalysis s.toList h2

theorem noSections_noKeyword_default_witness :
    containsSub ['\n', '\n'] ("hello world".toList) = false ∧
    matchesNoKeyword (sectionHeader ("hello world".toList)) = true ∧
    parseAiResponse "hello world" = emptyAnalysis :=
  ⟨by decide, by decide, noSections_noKeyword_default _ (by decide) (by decide)⟩

/-- Claim C3: every section whose lower-cased heading contains
"project name" sets `projectName` to the body lines joined with single
spaces and trimmed; in particular "Project Name\nFoo" parses to
`projectName = "Foo"`. -/
theorem projectName_section_rule :
    (∀ (acc : ProjectAnalysis) (sec : List Char),
        containsSub ("project name".toList) (sectionHeader sec) = true →
        (parseSection acc sec).projectName
          = (jsTrimL (joinSep [' '] ((sectionLines sec).drop 1))).asString)
    ∧ (parseAiResponse "Project Name\nFoo").projectName = "Foo" := by
  refine ⟨?_, by decide⟩
  intro acc sec h
  simp only [parseSection]
  rw [h]
  simp

theorem projectName_section_rule_witness :
    containsSub ("project name".toList) (sectionHeader ("Project Name\nFoo".toList)) = true ∧
    (parseSection emptyAnalysis ("Project Name\nFoo".toList)).projectName
      = (jsTrimL (joinSep [' '] ((sectionLines ("Project Name\nFoo".toList)).drop 1))).asString :=
  ⟨by decide, projectName_section_rule.1 emptyAnalysis _ (by decide)⟩

/-- Counterexample to claim C4 as stated: a section whose lower-cased
heading contains "tech stack" but also contains "project name" is captured
by the earlier "project name" branch, so `techStack` is not set to the body
lines: for "Project Name Tech Stack\n- Go" the claim predicts
`techStack = ["Go"]`, but the parser leaves `techStack` empty. -/
theorem techStack_keyword_counterexample :
    containsSub ("tech stack".toList)
        (sectionHeader ("Project Name Tech Stack\n- Go".toList)) = true ∧
    (parseAiResponse "Project Name Tech Stack\n- Go").techStack ≠ ["Go"] ∧
    (parseAiResponse "Project Name Tech Stack\n- Go").techStack = [] := by decide

/-- Claim C4, amended: every section whose lower-cased heading contains
"tech stack" and does not contain "project name" (so that the earlier
branch does not capture it) sets `techStack` to one entry per body line,
each entry the line with a leading dash-space marker stripped and then
trimmed, blank lines kept as empty entries; in particular
"Tech Stack\n- Go\n- Docker" parses to `techStack = ["Go", "Docker"]`, and
a trailing blank body line is kept as an empty entry. -/
theorem techStack_section_rule :
    (∀ (acc : ProjectAnalysis) (sec : List Char),
        containsSub ("tech stack".toList) (sectionHeader sec) = true →
        containsSub ("project name".toList) (sectionHeader sec) = false →
        (parseSection acc sec).techStack = ((sectionLines sec).drop 1).map listEntry)
    ∧ (parseAiResponse "Tech Stack\n- Go\n- Docker").techStack = ["Go", "Docker"]
    ∧ (parseAiResponse "Tech Stack\n- Go\n").techStack = ["Go", ""] := by
  refine ⟨?_, by decide, by decide⟩
  intro acc sec h hpn
  simp only [parseSection]
  rw [h, hpn]
  simp

theorem techStack_section_rule_witness :
    containsSub ("tech stack".toList) (sectionHeader ("Tech Stack\n- Go\n- Docker".toList)) = true ∧
    containsSub ("project name".toList) (sectionHeader ("Tech Stack\n- Go\n- Docker".toList)) = false ∧
    (parseSection emptyAnalysis ("Tech Stack\n- Go\n- Docker".toList)).techStack
      = ((sectionLines ("Tech Stack\n- Go\n- Docker".toList)).drop 1).map listEntry :=
  ⟨by decide, by decide, techStack_section_rule.1 emptyAnalysis _ (by decide) (by decide)⟩

/-- Claim C5: when several sections are dispatched to the same keyword
category, the later section overwrites the earlier one (last-write-wins,
no accumulation), for every one of the five categories: whatever sections
precede it and whatever the accumulated record is, a section dispatched to
category `t` and followed only by sections not dispatched to `t`
determines the final value of the field of `t`, which is computed from
that section alone; and for two sections both headed "Summary" with bodies
"First" then "Second" the final summary is "Second". -/
theorem last_write_wins :
    (∀ (t : FieldTag) (pre post : List (List Char)) (acc : ProjectAnalysis)
        (sec : List Char),
        branchTaken t (sectionHeader sec) = true →
        (∀ s ∈ post, branchTaken t (sectionHeader s) = false) →
        fieldOf t ((pre ++ sec :: post).foldl parseSection acc) = branchValue t sec)
    ∧ (parseAiResponse "Summary\nFirst\n\nSummary\nSecond").summary = "Second" := by
  refine ⟨?_, by decide⟩
  intro t pre post acc sec h hpost
  rw [List.foldl_append, List.foldl_cons, foldl_field_unchanged t post _ hpost,
    parseSection_branch t _ sec h]

theorem last_write_wins_witness :
    branchTaken FieldTag.techStack (sectionHeader ("Tech Stack\n- Go".toList)) = true ∧
    fieldOf FieldTag.techStack
        ((["Tech Stack\n- Rust".toList] ++ "Tech Stack\n- Go".toList :: []).foldl
          parseSection emptyAnalysis)
      = branchValue FieldTag.techStack ("Tech Stack\n- Go".toList) :=
  ⟨by decide,
    last_write_wins.1 FieldTag.techStack ["Tech Stack\n- Rust".toList] []
      emptyAnalysis ("Tech Stack\n- Go".toList) (by decide) (by simp)⟩

/-- Claim C6: a section contributes to at most one field (the dispatch
changes at most one field of the record), the keywords are tested in the
source priority order with the first match winning — a heading containing
"project name" leaves the four later fields untouched whatever else it
contains — and a heading containing both "project name" and "summary" sets
only `projectName`. -/
theorem parseSection_priority :
    (∀ (acc : ProjectAnalysis) (sec : List Char),
        changedFieldCount acc (parseSection acc sec) ≤ 1)
    ∧ (∀ (acc : ProjectAnalysis) (sec : List Char),
        containsSub ("project name".toList) (sectionHeader sec) = true →
        (parseSection acc sec).techStack = acc.techStack ∧
        (parseSection acc sec).projectIdeas = acc.projectIdeas ∧
        (parseSection acc sec).folderStructureAnalysis = acc.folderStructureAnalysis ∧
        (parseSection acc sec).summary = acc.summary)
    ∧ (parseAiResponse "Project Name and Summary\nX").projectName = "X"
    ∧ (parseAiResponse "Project Name and Summary\nX").summary = "" := by
  refine ⟨?_, ?_, by decide, by decide⟩
  · intro acc sec
    simp only [parseSection]
    split_ifs <;> simp [changedFieldCount] <;> split_ifs <;> simp
  · intro acc sec h
    simp only [parseSection]
    rw [h]
    simp

theorem parseSection_priority_witness :
    containsSub ("project name".toList)
        (sectionHeader ("Project Name and Summary\nX".toList)) = true ∧
    changedFieldCount emptyAnalysis
        (parseSection emptyAnalysis ("Project Name and Summary\nX".toList)) ≤ 1 ∧
    (parseSection emptyAnalysis ("Project Name and Summary\nX".toList)).summary
      = emptyAnalysis.summary :=
  ⟨by decide, parseSection_priority.1 emptyAnalysis _,
    (parseSection_priority.2.1 emptyAnalysis _ (by decide)).2.2.2⟩

/-- Claim C7: a section whose lower-cased heading contains none of the
keyword substrings is ignored entirely: the record is returned unchanged,
so no field is populated, no error is raised, and fields not matched by any
section keep their defaults; in particular "Random Header\nsome text"
parses to the all-default record. -/
theorem unmatched_section_ignored :
    (∀ (acc : ProjectAnalysis) (sec : List Char),
        matchesNoKeyword (sectionHeader sec) = true → parseSection acc sec = acc)
    ∧ parseAiResponse "Random Header\nsome text" = emptyAnalysis :=
  ⟨parseSection_of_noKeyword, by decide⟩

theorem unmatched_section_ignored_witness :
    matchesNoKeyword (sectionHeader ("Random Header\nsome text".toList)) = true ∧
    parseSection emptyAnalysis ("Random Header\nsome text".toList) = emptyAnalysis :=
  ⟨by decide, unmatched_section_ignored.1 emptyAnalysis _ (by decide)⟩

/-- Claim C8: `parseAiResponse` is deterministic and stateless — two calls
on the same raw text, modelled by `parseTwice`, yield structurally equal
records. -/
theorem parseAiResponse_deterministic (s : String) :
    (parseTwice s).1 = (parseTwice s).2 := rfl

/-- Claim C9: when no remote-service credential is available (the key is
the empty string, which is exactly when the JavaScript guard `!apiKey`
fires), `analyzeWithDeepSeek` returns the configuration error and the
number of network requests issued is zero: the error arises before the
HTTP POST to the chat-completion endpoint. -/
theorem analyzeWithDeepSeek_config_error (apiKey : String)
    (doFetch : String → FetchOutcome) (structureStr filesJson : String)
    (h : apiKey = "") :
    analyzeWithDeepSeek apiKey doFetch structureStr filesJson
      = (Except.error configErrorMessage, 0) := by
  subst h
  simp [analyzeWithDeepSeek]

theorem analyzeWithDeepSeek_config_error_witness :
    sourceApiKey = "" ∧
    analyzeWithDeepSeek sourceApiKey (fun _ => FetchOutcome.success "reply") "src/" "files"
      = (Except.error configErrorMessage, 0) :=
  ⟨rfl, analyzeWithDeepSeek_config_error sourceApiKey
    (fun _ => FetchOutcome.success "reply") "src/" "files" rfl⟩

/-- Claim C10: the dash-space marker is stripped from a body line only when
the line begins with exactly a dash followed by a space, at most once, and
before trimming: a line that does not begin that way is unchanged, the marker is
removed exactly once, "-Go" stays "-Go", "- - x" becomes "- x", and the
indented "  - Go" becomes "- Go" because its marker is not at the start
when the replace runs. -/
theorem dash_marker_semantics :
    (∀ line : List Char,
        startsWith ['-', ' '] line = false → jsReplaceLeadingDash line = line)
    ∧ (∀ rest : List Char, jsReplaceLeadingDash ('-' :: ' ' :: rest) = rest)
    ∧ (parseAiResponse "Tech Stack\n-Go").techStack = ["-Go"]
    ∧ (parseAiResponse "Tech Stack\n- - x").techStack = ["- x"]
    ∧ (parseAiResponse "Tech Stack\n  - Go").techStack = ["- Go"] := by
  refine ⟨?_, fun rest => rfl, by decide, by decide, by decide⟩
  intro line h
  rcases line with _ | ⟨c1, _ | ⟨c2, rest⟩⟩
  · rfl
  · rfl
  · have hcond : ¬((c1 == '-' && c2 == ' ') = true) := by
      intro hc
      rw [Bool.and_eq_true, beq_iff_eq, beq_iff_eq] at hc
      obtain ⟨rfl, rfl⟩ := hc
      simp [startsWith] at h
    show (if c1 == '-' && c2 == ' ' then rest else c1 :: c2 :: rest) = c1 :: c2 :: rest
    rw [if_neg hcond]

theorem dash_marker_semantics_witness :
    startsWith ['-', ' '] ("-Go".toList) = false ∧
    jsReplaceLeadingDash ("-Go".toList) = "-Go".toList :=
  ⟨by decide, dash_marker_semantics.1 ("-Go".toList) (by decide)⟩
